import Mathlib

/-!
Shallow embedding of the server-monitoring collector (src/APP/server.py):
JSON payload values, Python truthiness and numeric coercion, the
collect-metrics and collect-hashes ingestion pipelines, the alert store,
and the fleet-view read with its four history ring buffers.
-/

/-- A JSON value as seen by the request handlers (the result of request.json()). -/
inductive JVal where
  | null : JVal
  | bool (b : Bool) : JVal
  | num (q : ℚ) : JVal
  | str (s : String) : JVal
  | arr (xs : List JVal) : JVal
  | obj (fields : List (String × JVal)) : JVal

/-- Python truthiness of a JSON value: None, False, 0, empty string, empty
list and empty dict are falsy. -/
def truthy : JVal → Bool
  | JVal.null => false
  | JVal.bool b => b
  | JVal.num q => decide (q ≠ 0)
  | JVal.str s => decide (s ≠ "")
  | JVal.arr xs => !xs.isEmpty
  | JVal.obj fs => !fs.isEmpty

/-- dict.get(k): the value bound to the first occurrence of key k, None when absent. -/
def getField (fields : List (String × JVal)) (k : String) : JVal :=
  match fields.find? (fun p => p.1 == k) with
  | some p => p.2
  | none => JVal.null

/-- Python `x or d`: x when truthy, else d. -/
def pyOr (x d : JVal) : JVal := if truthy x then x else d

/-- Value of a digit list read in base 10. -/
def digitsVal (l : List Char) : ℕ :=
  l.foldl (fun a c => a * 10 + (c.toNat - 48)) 0

/-- Strip leading and trailing whitespace from a character list. -/
def trimChars (l : List Char) : List Char :=
  ((l.dropWhile Char.isWhitespace).reverse.dropWhile Char.isWhitespace).reverse

/-- Python str.strip(). -/
def pyStrip (s : String) : String := String.mk (trimChars s.data)

/-- Python str.lower(). -/
def lowerStr (s : String) : String := String.mk (s.data.map Char.toLower)

/-- Python s[:n] slicing on a string. -/
def strTake (s : String) (n : ℕ) : String := String.mk (s.data.take n)

/-- Model of Python float(string): optional surrounding whitespace and sign,
then digits with an optional single decimal point; none when unparsable. -/
def parseNumStr (s : String) : Option ℚ :=
  let cs := trimChars s.data
  let signed : Bool × List Char :=
    match cs with
    | '-' :: t => (true, t)
    | '+' :: t => (false, t)
    | _ => (false, cs)
  let ip := signed.2.takeWhile Char.isDigit
  let rest := signed.2.dropWhile Char.isDigit
  let mag : Option ℚ :=
    match rest with
    | [] => if ip = [] then none else some ((digitsVal ip : ℚ))
    | '.' :: fr =>
        if fr.all Char.isDigit ∧ (ip ≠ [] ∨ fr ≠ []) then
          some ((digitsVal ip : ℚ) + (digitsVal fr : ℚ) / ((10 : ℚ) ^ fr.length))
        else none
    | _ => none
  mag.map (fun q => if signed.1 then -q else q)

/-- Model of Python int(string): optional surrounding whitespace and sign,
then digits only; none when unparsable. -/
def parseIntStr (s : String) : Option ℤ :=
  let cs := trimChars s.data
  let signed : Bool × List Char :=
    match cs with
    | '-' :: t => (true, t)
    | '+' :: t => (false, t)
    | _ => (false, cs)
  if signed.2 ≠ [] ∧ signed.2.all Char.isDigit then
    some (if signed.1 then -(digitsVal signed.2 : ℤ) else (digitsVal signed.2 : ℤ))
  else none

/-- Truncation toward zero, as Python int() applied to a float. -/
def truncQ (q : ℚ) : ℤ :=
  if 0 ≤ q.num then ((q.num.toNat / q.den : ℕ) : ℤ)
  else -(((-q.num).toNat / q.den : ℕ) : ℤ)

/-- Model of Python float(v): numbers pass through, booleans become 0/1,
numeric strings parse, everything else raises. -/
def pyFloat : JVal → Except Unit ℚ
  | JVal.num q => Except.ok q
  | JVal.bool b => Except.ok (if b then 1 else 0)
  | JVal.str s =>
      match parseNumStr s with
      | some q => Except.ok q
      | none => Except.error ()
  | _ => Except.error ()

/-- Model of Python int(v): floats truncate toward zero, booleans become 0/1,
integer strings parse, everything else raises. -/
def pyInt : JVal → Except Unit ℤ
  | JVal.num q => Except.ok (truncQ q)
  | JVal.bool b => Except.ok (if b then 1 else 0)
  | JVal.str s =>
      match parseIntStr s with
      | some z => Except.ok z
      | none => Except.error ()
  | _ => Except.error ()

/-- Model of Python str(v) on the values the handlers feed it; container
values are abstracted to marker strings (no handler-relevant payload uses them). -/
def pyStr : JVal → String
  | JVal.null => "None"
  | JVal.bool b => if b then "True" else "False"
  | JVal.num q => if q.den = 1 then toString q.num else toString q
  | JVal.str s => s
  | JVal.arr _ => "<list-repr>"
  | JVal.obj _ => "<dict-repr>"

deriving instance DecidableEq for Except

/-- Reason recorded in a RESOURCE alert description for one breached threshold. -/
inductive BreachReason where
  | cpuHigh : BreachReason
  | ramHigh : BreachReason
deriving DecidableEq

/-- Information content of an alert description string. -/
inductive AlertDesc where
  | resource (reasons : List BreachReason) : AlertDesc
  | maliciousHash (sha : String) (fp : String) : AlertDesc
deriving DecidableEq

/-- One row of the alerts table. -/
structure AlertRow where
  ts : ℚ
  hostname : String
  category : String
  severity : String
  label : String
  description : AlertDesc
  file_path : Option String
  sha256 : Option String
  cpu : Option ℚ
  ramRatio : Option ℚ
deriving DecidableEq

/-- Row built by _insert_alert: file_path and sha256 are dropped when falsy
and sliced to 1024 / 64 characters otherwise. -/
def mkAlertRow (now : ℚ) (hostname category : String) (description : AlertDesc)
    (severity label : String) (file_path sha256 : Option String)
    (cpu ramRatio : Option ℚ) : AlertRow :=
  { ts := now, hostname := hostname, category := category, severity := severity,
    label := label, description := description,
    file_path :=
      match file_path with
      | some s => if s = "" then none else some (strTake s 1024)
      | none => none,
    sha256 :=
      match sha256 with
      | some s => if s = "" then none else some (strTake s 64)
      | none => none,
    cpu := cpu, ramRatio := ramRatio }

/-- _insert_alert's effect on the alerts table: unconditional append, no
lookup of existing rows. -/
def insertAlertStore (store : List AlertRow) (a : AlertRow) : List AlertRow :=
  store ++ [a]

/-- One host's entry of the in-memory metrics cache. -/
structure CacheEntry where
  ts : ℚ
  name : String
  ip : String
  cpu : ℚ
  ramTotal : ℤ
  ramUsed : ℤ
  diskTotal : ℤ
  diskUsed : ℤ
  netIn : ℤ
  netOut : ℤ
deriving DecidableEq

/-- What a successful collect-metrics request computes: the cache entry it
stores, the ram ratio, the response flag, and the RESOURCE alerts it inserts. -/
structure MetricsResult where
  hostname : String
  entry : CacheEntry
  ramRatio : ℚ
  resourceAlerted : Bool
  alerts : List AlertRow
deriving DecidableEq

/-- The collect-metrics handler body on an already-parsed JSON object:
field extraction with Python float()/int() coercions, the ram-ratio guard,
the cache entry, and the threshold alert.  An uncaught coercion exception
surfaces as Except.error (an HTTP 500, request rejected). -/
def collect_metrics (cpuHigh ramRatioHigh now : ℚ)
    (data : List (String × JVal)) : Except Unit MetricsResult :=
  let hostname := pyStr (pyOr (getField data "hostname") (JVal.str "unknown"))
  match pyFloat (pyOr (getField data "ramTotal") (JVal.num 0)) with
  | Except.error e => Except.error e
  | Except.ok rt =>
  match pyFloat (pyOr (getField data "ramUsed") (JVal.num 0)) with
  | Except.error e => Except.error e
  | Except.ok ru =>
  let ramRatio : ℚ := if rt > 0 then ru / rt else 0
  match pyFloat (pyOr (getField data "cpu") (JVal.num 0)) with
  | Except.error e => Except.error e
  | Except.ok cpu =>
  let dtdu : ℚ × ℚ :=
    match pyFloat (pyOr (getField data "diskTotal") (JVal.num 0)),
          pyFloat (pyOr (getField data "diskUsed") (JVal.num 0)) with
    | Except.ok a, Except.ok b => (a, b)
    | _, _ => (0, 0)
  match pyInt (pyOr (getField data "netIn") (JVal.num 0)) with
  | Except.error e => Except.error e
  | Except.ok nIn =>
  match pyInt (pyOr (getField data "netOut") (JVal.num 0)) with
  | Except.error e => Except.error e
  | Except.ok nOut =>
  let entry : CacheEntry :=
    { ts := now, name := hostname,
      ip := pyStr (pyOr (getField data "ip")
              (pyOr (getField data "ip_address") (JVal.str ""))),
      cpu := cpu,
      ramTotal := truncQ rt, ramUsed := truncQ ru,
      diskTotal := truncQ dtdu.1, diskUsed := truncQ dtdu.2,
      netIn := nIn, netOut := nOut }
  let alerts : List AlertRow :=
    if cpu ≥ cpuHigh ∨ ramRatio ≥ ramRatioHigh then
      [mkAlertRow now hostname "RESOURCE"
        (AlertDesc.resource
          ((if cpu ≥ cpuHigh then [BreachReason.cpuHigh] else []) ++
           (if ramRatio ≥ ramRatioHigh then [BreachReason.ramHigh] else [])))
        "CRITICAL" "Critical issue" none none (some cpu) (some ramRatio)]
    else []
  Except.ok
    { hostname := hostname, entry := entry, ramRatio := ramRatio,
      resourceAlerted := decide (cpu ≥ cpuHigh ∨ ramRatio ≥ ramRatioHigh),
      alerts := alerts }

/-- collect-metrics on the raw request body: a body that is not a JSON
object makes the attribute access raise (request rejected). -/
def collect_metrics_req (cpuHigh ramRatioHigh now : ℚ) (body : JVal) :
    Except Unit MetricsResult :=
  match body with
  | JVal.obj fields => collect_metrics cpuHigh ramRatioHigh now fields
  | _ => Except.error ()

/-- collect-metrics together with its effect on the persisted alerts table. -/
def collect_metrics_store (cpuHigh ramRatioHigh now : ℚ) (body : JVal)
    (store : List AlertRow) : Except Unit (MetricsResult × List AlertRow) :=
  match collect_metrics_req cpuHigh ramRatioHigh now body with
  | Except.error e => Except.error e
  | Except.ok r => Except.ok (r, r.alerts.foldl insertAlertStore store)


/-- One row of the file_hashes table (the claim-relevant columns). -/
structure HashRow where
  hostname : String
  file_path : String
  sha256 : Option String
deriving DecidableEq

/-- Validation step of collect-hashes: the body must be a JSON object,
hostname must strip to a non-empty string (a truthy non-string raises at
.strip()), and the hashes field, after defaulting a falsy value to the
empty list, must be a list.  Any failure is a 400 with nothing persisted. -/
def parseHashRequest (body : JVal) : Except Unit (String × List JVal) :=
  match body with
  | JVal.obj fields =>
      match pyOr (getField fields "hostname") (JVal.str "") with
      | JVal.str s =>
          let hostname := pyStrip s
          match pyOr (getField fields "hashes") (JVal.arr []) with
          | JVal.arr xs =>
              if hostname = "" then Except.error () else Except.ok (hostname, xs)
          | _ => Except.error ()
      | _ => Except.error ()
  | _ => Except.error ()

/-- The IOC candidate contributed by one entry: its sha256 value when that
is a truthy string of length exactly 64, lowercased (mirrors
`if sha and isinstance(sha, str) and len(sha) == 64`). -/
def shaCand (hf : List (String × JVal)) : Option String :=
  match getField hf "sha256" with
  | JVal.str s =>
      if s ≠ "" ∧ s.data.length = 64 then some (lowerStr s) else none
  | _ => none

/-- Per-entry processing of a hash batch entry: a non-object entry raises;
an entry whose file_path is falsy is skipped; otherwise it yields a
file_hashes row, and additionally its IOC candidate. -/
def processEntry (hostname : String) (h : JVal) :
    Except Unit (Option HashRow × Option String) :=
  match h with
  | JVal.obj hf =>
      let fp := pyStr (pyOr (getField hf "file_path") (JVal.str ""))
      if fp = "" then Except.ok (none, none)
      else
        let sha := getField hf "sha256"
        Except.ok
          (some { hostname := hostname, file_path := strTake fp 1024,
                  sha256 := if truthy sha then some (pyStr sha) else none },
           shaCand hf)
  | _ => Except.error ()

/-- The batch loop of collect-hashes: builds the file_hashes rows in batch
order and the set of IOC candidates. -/
def processEntries (hostname : String) :
    List JVal → Except Unit (List HashRow × Finset String)
  | [] => Except.ok ([], ∅)
  | h :: rest =>
      match processEntry hostname h with
      | Except.error e => Except.error e
      | Except.ok re =>
          match processEntries hostname rest with
          | Except.error e => Except.error e
          | Except.ok pr =>
              Except.ok
                ((match re.1 with | some r => r :: pr.1 | none => pr.1),
                 (match re.2 with | some s => insert s pr.2 | none => pr.2))

/-- The HASH alert emitted for one file_hashes row whose lowercased sha256
is in the matched bad set, none otherwise. -/
def rowAlert (now : ℚ) (hostname : String) (bad : Finset String)
    (r : HashRow) : Option AlertRow :=
  match r.sha256 with
  | some s =>
      if s ≠ "" ∧ lowerStr s ∈ bad then
        some (mkAlertRow now hostname "HASH"
          (AlertDesc.maliciousHash (lowerStr s) r.file_path)
          "CRITICAL" "Critical issue" (some r.file_path) (some (lowerStr s))
          none none)
      else none
  | none => none

/-- What a successful collect-hashes request computes. -/
structure HashOutcome where
  hostname : String
  rows : List HashRow
  shaSet : Finset String
  bad : Finset String
  alerts : List AlertRow
deriving DecidableEq

/-- Response field inserted_hash_rows. -/
def inserted_hash_rows (o : HashOutcome) : ℕ := o.rows.length

/-- Response field alerts_created. -/
def alerts_created (o : HashOutcome) : ℕ := o.alerts.length

/-- Cap applied to a hash batch before the per-entry loop. -/
def MAX_ROWS : ℕ := 20000

/-- The collect-hashes pipeline after validation: truncate the batch to
MAX_ROWS, build rows and IOC candidates, and when an external IOC table is
configured and candidates exist, intersect the lowercased IOC column with
the candidates and emit one HASH alert per matching row. -/
def collect_hashes_parsed (iocConfigured : Bool) (ioc : Finset String)
    (now : ℚ) (hostname : String) (hashes : List JVal) :
    Except Unit HashOutcome :=
  let truncated := hashes.take MAX_ROWS
  match processEntries hostname truncated with
  | Except.error e => Except.error e
  | Except.ok pr =>
      let rows := pr.1
      let shaSet := pr.2
      if shaSet ≠ ∅ ∧ iocConfigured = true then
        let bad := Finset.image lowerStr ioc ∩ shaSet
        Except.ok
          { hostname := hostname, rows := rows, shaSet := shaSet,
            bad := bad,
            alerts :=
              if bad ≠ ∅ then rows.filterMap (rowAlert now hostname bad)
              else [] }
      else
        Except.ok
          { hostname := hostname, rows := rows, shaSet := shaSet,
            bad := ∅, alerts := [] }

/-- The collect-hashes handler: validate, then run the batch pipeline. -/
def collect_hashes (iocConfigured : Bool) (ioc : Finset String) (now : ℚ)
    (body : JVal) : Except Unit HashOutcome :=
  match parseHashRequest body with
  | Except.error e => Except.error e
  | Except.ok hp => collect_hashes_parsed iocConfigured ioc now hp.1 hp.2

/-- collect-hashes together with its effect on the persisted alerts table. -/
def collect_hashes_store (iocConfigured : Bool) (ioc : Finset String)
    (now : ℚ) (body : JVal) (store : List AlertRow) :
    Except Unit (HashOutcome × List AlertRow) :=
  match collect_hashes iocConfigured ioc now body with
  | Except.error e => Except.error e
  | Except.ok o => Except.ok (o, o.alerts.foldl insertAlertStore store)

/-- One element of the servers array of the fleet view. -/
structure ServerView where
  name : String
  ip : String
  status : String
  cpu : ℚ
  ramTotal : ℤ
  ramUsed : ℤ
  diskTotal : ℤ
  diskUsed : ℤ
  netIn : ℤ
  netOut : ℤ
deriving DecidableEq

/-- The four history ring buffers. -/
structure HistState where
  up : List ℕ
  down : List ℕ
  cpu : List ℚ
  ram : List ℚ
deriving DecidableEq

/-- Capacity of each history ring buffer. -/
def METRICS_HISTORY_LEN : ℕ := 20

/-- Append to a deque with a maximum length: the oldest elements (at the
front) are discarded once the length would exceed maxlen. -/
def dequeAppend (maxlen : ℕ) (d : List α) (x : α) : List α :=
  let d2 := d ++ [x]
  if maxlen < d2.length then d2.drop (d2.length - maxlen) else d2

/-- Status derivation of the fleet view: up iff the snapshot age is at most
the staleness threshold. -/
def deriveStatus (staleSecs : ℤ) (now ts : ℚ) : String :=
  if now - ts ≤ (staleSecs : ℚ) then "up" else "down"

/-- The servers-array element built from one cache entry. -/
def serverView (staleSecs : ℤ) (now : ℚ) (host : String) (m : CacheEntry) :
    ServerView :=
  { name := if m.name = "" then host else m.name,
    ip := m.ip,
    status := deriveStatus staleSecs now m.ts,
    cpu := m.cpu,
    ramTotal := m.ramTotal, ramUsed := m.ramUsed,
    diskTotal := m.diskTotal, diskUsed := m.diskUsed,
    netIn := m.netIn, netOut := m.netOut }

/-- Per-host ram percentage used for the fleet average. -/
def ramPct (m : CacheEntry) : ℚ :=
  if (m.ramTotal : ℚ) > 0 then (m.ramUsed : ℚ) / (m.ramTotal : ℚ) * 100 else 0

/-- Python round(x, 2). -/
def roundQ2 (q : ℚ) : ℚ := ((round (q * 100) : ℤ) : ℚ) / 100

/-- The fleet-view read: derives each host's status, computes the fleet
aggregates, and appends one sample to each of the four ring buffers; the
returned history is the post-append state. -/
def api_metrics (staleSecs : ℤ) (now : ℚ) (cache : List (String × CacheEntry))
    (h : HistState) : List ServerView × HistState :=
  let servers := cache.map (fun p => serverView staleSecs now p.1 p.2)
  let upCount :=
    (cache.filter (fun p => decide (deriveStatus staleSecs now p.2.ts = "up"))).length
  let downCount :=
    (cache.filter (fun p => decide (deriveStatus staleSecs now p.2.ts = "down"))).length
  let cpuVals := cache.map (fun p => p.2.cpu)
  let ramVals := cache.map (fun p => ramPct p.2)
  let avgCpu := if cpuVals.length ≠ 0 then cpuVals.sum / (cpuVals.length : ℚ) else 0
  let avgRam := if ramVals.length ≠ 0 then ramVals.sum / (ramVals.length : ℚ) else 0
  (servers,
   { up := dequeAppend METRICS_HISTORY_LEN h.up upCount,
     down := dequeAppend METRICS_HISTORY_LEN h.down downCount,
     cpu := dequeAppend METRICS_HISTORY_LEN h.cpu (roundQ2 avgCpu),
     ram := dequeAppend METRICS_HISTORY_LEN h.ram (roundQ2 avgRam) })

/-- Written from the spec wording only, for comparison with the code: a
well-formed sha256 is 64 hexadecimal characters. -/
def specWellFormedSha (s : String) : Bool :=
  s.data.length = 64 &&
    s.data.all (fun c => c.isDigit || ('a' ≤ c && c ≤ 'f') || ('A' ≤ c && c ≤ 'F'))

/-- Concrete cache entry used to instantiate fleet-view theorems. -/
def sampleEntry : CacheEntry :=
  { ts := 0, name := "h1", ip := "", cpu := 0, ramTotal := 0, ramUsed := 0,
    diskTotal := 0, diskUsed := 0, netIn := 0, netOut := 0 }

/-- A 64-character string that is not hexadecimal. -/
def zSha : String :=
  "zzzzzzzzzzzzzzzzzzzzzzzzzzzzzzzzzzzzzzzzzzzzzzzzzzzzzzzzzzzzzzzz"

/-- A concrete lowercase sha256 value used as a known-bad hash. -/
def aSha : String :=
  "aaaaaaaaaaaaaaaaaaaaaaaaaaaaaaaaaaaaaaaaaaaaaaaaaaaaaaaaaaaaaaaa"

/-- A hash batch reporting one file whose sha256 is aSha. -/
def c1Body : JVal :=
  JVal.obj [("hostname", JVal.str "h1"),
    ("hashes", JVal.arr
      [JVal.obj [("file_path", JVal.str "/f"), ("sha256", JVal.str aSha)]])]

/-- An alert for (h1, aSha, HASH) created at time 0, one hour before a
re-submission at time 3600 (well within a 24-hour window). -/
def priorAlert : AlertRow :=
  { ts := 0, hostname := "h1", category := "HASH", severity := "CRITICAL",
    label := "Critical issue",
    description := AlertDesc.maliciousHash aSha "/f",
    file_path := some "/f", sha256 := some aSha, cpu := none, ramRatio := none }

/-- Inserting a list of alerts one by one appends it to the store. -/
theorem foldl_insertAlertStore (l : List AlertRow) (store : List AlertRow) :
    l.foldl insertAlertStore store = store ++ l := by
  induction l generalizing store with
  | nil => simp
  | cons a t ih =>
      simp only [List.foldl_cons, insertAlertStore, ih]
      simp

/-- Each batch entry contributes at most one file_hashes row. -/
theorem processEntries_rows_le (hostname : String) (l : List JVal)
    (rows : List HashRow) (shas : Finset String)
    (h : processEntries hostname l = Except.ok (rows, shas)) :
    rows.length ≤ l.length := by
  induction l generalizing rows shas with
  | nil =>
      simp only [processEntries] at h
      cases h
      simp
  | cons hd tl ih =>
      simp only [processEntries] at h
      cases h1 : processEntry hostname hd with
      | error e => rw [h1] at h; cases h
      | ok re =>
          rw [h1] at h
          cases h2 : processEntries hostname tl with
          | error e => rw [h2] at h; cases h
          | ok pr =>
              rw [h2] at h
              cases h
              have := ih pr.1 pr.2 (by rw [h2])
              cases re.1 with
              | none => simpa using Nat.le_succ_of_le this
              | some r => simpa using Nat.succ_le_succ this

/-- C3: with no external IOC lookup table configured, the IOC-matching step
of collect-hashes is skipped: every successful hash batch yields
alerts_created = 0, no HASH alert, and an empty matched bad set. -/
theorem c3_no_ioc_table_no_hash_alerts (ioc : Finset String) (now : ℚ)
    (body : JVal) (o : HashOutcome)
    (h : collect_hashes false ioc now body = Except.ok o) :
    alerts_created o = 0 ∧ o.alerts = [] ∧ o.bad = ∅ := by
  simp only [collect_hashes, collect_hashes_parsed] at h
  split at h
  · exact Except.noConfusion h
  · split at h
    · exact Except.noConfusion h
    · split at h
      · rename_i hcond
        exact absurd hcond.2 (by simp)
      · injection h with h
        subst h
        simp [alerts_created]

theorem c3_witness :
    ∃ o, collect_hashes false ∅ 0
        (JVal.obj [("hostname", JVal.str "h1"), ("hashes", JVal.arr [])]) =
        Except.ok o ∧ alerts_created o = 0 :=
  ⟨⟨"h1", [], ∅, ∅, []⟩, by decide,
   (c3_no_ioc_table_no_hash_alerts ∅ 0
      (JVal.obj [("hostname", JVal.str "h1"), ("hashes", JVal.arr [])])
      ⟨"h1", [], ∅, ∅, []⟩ (by decide)).1⟩

/-- C8: the hash batch is truncated to MAX_ROWS = 20000 entries before any
per-entry processing (running the pipeline on the truncated batch is
identical), a batch longer than 20000 is cut to exactly 20000, and
inserted_hash_rows never exceeds 20000. -/
theorem c8_batch_truncation (c : Bool) (ioc : Finset String) (now : ℚ)
    (hostname : String) (hashes : List JVal) :
    collect_hashes_parsed c ioc now hostname hashes =
      collect_hashes_parsed c ioc now hostname (hashes.take MAX_ROWS) ∧
    MAX_ROWS = 20000 ∧
    (20000 < hashes.length → (hashes.take MAX_ROWS).length = 20000) ∧
    (∀ o, collect_hashes_parsed c ioc now hostname hashes = Except.ok o →
        inserted_hash_rows o ≤ 20000) := by
  refine ⟨?_, rfl, ?_, ?_⟩
  · simp only [collect_hashes_parsed, List.take_take, min_self]
  · intro hlen
    simp only [List.length_take, MAX_ROWS]
    omega
  · intro o ho
    simp only [collect_hashes_parsed] at ho
    split at ho
    · exact Except.noConfusion ho
    · rename_i pr hq
      have hle := processEntries_rows_le hostname _ _ _ hq
      have hlen : pr.1.length ≤ 20000 := by
        refine le_trans ?_ (le_trans (List.length_take_le MAX_ROWS hashes) (by rfl))
        simpa using hle
      split at ho
      all_goals injection ho with ho
      all_goals subst ho
      all_goals simpa [inserted_hash_rows] using hlen

theorem c8_witness :
    ∃ o, collect_hashes_parsed false ∅ 0 "h1"
        [JVal.obj [("file_path", JVal.str "/f")]] = Except.ok o ∧
      inserted_hash_rows o ≤ 20000 :=
  ⟨⟨"h1", [⟨"h1", "/f", none⟩], ∅, ∅, []⟩, by decide,
   (c8_batch_truncation false ∅ 0 "h1"
      [JVal.obj [("file_path", JVal.str "/f")]]).2.2.2
      ⟨"h1", [⟨"h1", "/f", none⟩], ∅, ∅, []⟩ (by decide)⟩

/-- C5: on a fleet-view read, the cached host at index i is reported with
status up iff now - observed_at is at most the staleness threshold, and
down iff that fails: pure threshold comparison, no hysteresis. -/
theorem c5_status_staleness (staleSecs : ℤ) (now : ℚ)
    (cache : List (String × CacheEntry)) (h : HistState) (i : ℕ)
    (host : String) (m : CacheEntry) (hc : cache[i]? = some (host, m)) :
    ∃ s, (api_metrics staleSecs now cache h).1[i]? = some s ∧
      (s.status = "up" ↔ now - m.ts ≤ (staleSecs : ℚ)) ∧
      (s.status = "down" ↔ ¬ now - m.ts ≤ (staleSecs : ℚ)) := by
  refine ⟨serverView staleSecs now host m, ?_, ?_, ?_⟩
  · simp [api_metrics, List.getElem?_map, hc]
  · by_cases hst : now - m.ts ≤ (staleSecs : ℚ) <;>
      simp [serverView, deriveStatus, hst]
  · by_cases hst : now - m.ts ≤ (staleSecs : ℚ) <;>
      simp [serverView, deriveStatus, hst]

theorem c5_witness :
    ∃ s, (api_metrics 30 31 [("h1", sampleEntry)]
            ⟨[], [], [], []⟩).1[0]? = some s ∧
      (s.status = "up" ↔ (31 : ℚ) - sampleEntry.ts ≤ ((30 : ℤ) : ℚ)) ∧
      (s.status = "down" ↔ ¬ (31 : ℚ) - sampleEntry.ts ≤ ((30 : ℤ) : ℚ)) :=
  c5_status_staleness 30 31 [("h1", sampleEntry)] ⟨[], [], [], []⟩ 0
    "h1" sampleEntry rfl

/-- Appending to a 20-capacity deque that is within capacity: one element
is appended at the back, the oldest element is evicted exactly when the
deque is full, and the result stays within capacity. -/
theorem dequeAppend_20 {α : Type} (d : List α) (x : α) (hd : d.length ≤ 20) :
    dequeAppend 20 d x = (if d.length < 20 then d else d.drop 1) ++ [x] ∧
      (dequeAppend 20 d x).length ≤ 20 := by
  unfold dequeAppend
  by_cases hlt : d.length < 20
  · have hno : ¬ 20 < (d ++ [x]).length := by simp; omega
    rw [if_neg hno, if_pos hlt]
    constructor
    · rfl
    · simp; omega
  · have h20 : d.length = 20 := by omega
    have hyes : 20 < (d ++ [x]).length := by simp [h20]
    rw [if_pos hyes, if_neg hlt]
    constructor
    · have hdrop : (d ++ [x]).length - 20 = 1 := by simp [h20]
      rw [hdrop, List.drop_append_of_le_length (by omega)]
    · simp [h20]

/-- C6: each fleet-view read appends exactly one sample at the back of each
of the four history ring buffers; a buffer already at capacity 20 evicts
exactly its oldest sample, and no buffer ever exceeds 20 samples. -/
theorem c6_history_ring (staleSecs : ℤ) (now : ℚ)
    (cache : List (String × CacheEntry)) (h : HistState)
    (h1 : h.up.length ≤ 20) (h2 : h.down.length ≤ 20)
    (h3 : h.cpu.length ≤ 20) (h4 : h.ram.length ≤ 20) :
    ((api_metrics staleSecs now cache h).2.up.length ≤ 20 ∧
     (api_metrics staleSecs now cache h).2.down.length ≤ 20 ∧
     (api_metrics staleSecs now cache h).2.cpu.length ≤ 20 ∧
     (api_metrics staleSecs now cache h).2.ram.length ≤ 20) ∧
    (∃ u, (api_metrics staleSecs now cache h).2.up =
        (if h.up.length < 20 then h.up else h.up.drop 1) ++ [u]) ∧
    (∃ d, (api_metrics staleSecs now cache h).2.down =
        (if h.down.length < 20 then h.down else h.down.drop 1) ++ [d]) ∧
    (∃ c, (api_metrics staleSecs now cache h).2.cpu =
        (if h.cpu.length < 20 then h.cpu else h.cpu.drop 1) ++ [c]) ∧
    (∃ r, (api_metrics staleSecs now cache h).2.ram =
        (if h.ram.length < 20 then h.ram else h.ram.drop 1) ++ [r]) := by
  simp only [api_metrics, METRICS_HISTORY_LEN]
  refine ⟨⟨?_, ?_, ?_, ?_⟩, ?_, ?_, ?_, ?_⟩
  · exact (dequeAppend_20 h.up _ h1).2
  · exact (dequeAppend_20 h.down _ h2).2
  · exact (dequeAppend_20 h.cpu _ h3).2
  · exact (dequeAppend_20 h.ram _ h4).2
  · exact ⟨_, (dequeAppend_20 h.up _ h1).1⟩
  · exact ⟨_, (dequeAppend_20 h.down _ h2).1⟩
  · exact ⟨_, (dequeAppend_20 h.cpu _ h3).1⟩
  · exact ⟨_, (dequeAppend_20 h.ram _ h4).1⟩

theorem c6_witness :
    ((api_metrics 30 0 [] ⟨[], [], [], []⟩).2.up.length ≤ 20 ∧
     (api_metrics 30 0 [] ⟨[], [], [], []⟩).2.down.length ≤ 20 ∧
     (api_metrics 30 0 [] ⟨[], [], [], []⟩).2.cpu.length ≤ 20 ∧
     (api_metrics 30 0 [] ⟨[], [], [], []⟩).2.ram.length ≤ 20) ∧
    (∃ u, (api_metrics 30 0 [] ⟨[], [], [], []⟩).2.up =
        (if ([] : List ℕ).length < 20 then ([] : List ℕ)
         else ([] : List ℕ).drop 1) ++ [u]) :=
  ⟨(c6_history_ring 30 0 [] ⟨[], [], [], []⟩ (by decide) (by decide)
      (by decide) (by decide)).1,
   (c6_history_ring 30 0 [] ⟨[], [], [], []⟩ (by decide) (by decide)
      (by decide) (by decide)).2.1⟩

/-- Evaluation of collect-metrics when every numeric coercion succeeds. -/
theorem collect_metrics_ok (cpuHigh ramRatioHigh now : ℚ)
    (data : List (String × JVal)) (rt ru c : ℚ) (nIn nOut : ℤ)
    (hrt : pyFloat (pyOr (getField data "ramTotal") (JVal.num 0)) = Except.ok rt)
    (hru : pyFloat (pyOr (getField data "ramUsed") (JVal.num 0)) = Except.ok ru)
    (hc : pyFloat (pyOr (getField data "cpu") (JVal.num 0)) = Except.ok c)
    (hni : pyInt (pyOr (getField data "netIn") (JVal.num 0)) = Except.ok nIn)
    (hno : pyInt (pyOr (getField data "netOut") (JVal.num 0)) = Except.ok nOut) :
    collect_metrics cpuHigh ramRatioHigh now data = Except.ok
      { hostname := pyStr (pyOr (getField data "hostname") (JVal.str "unknown")),
        entry :=
          { ts := now,
            name := pyStr (pyOr (getField data "hostname") (JVal.str "unknown")),
            ip := pyStr (pyOr (getField data "ip")
                    (pyOr (getField data "ip_address") (JVal.str ""))),
            cpu := c,
            ramTotal := truncQ rt, ramUsed := truncQ ru,
            diskTotal := truncQ
              (match pyFloat (pyOr (getField data "diskTotal") (JVal.num 0)),
                     pyFloat (pyOr (getField data "diskUsed") (JVal.num 0)) with
               | Except.ok a, Except.ok b => (a, b)
               | _, _ => ((0 : ℚ), (0 : ℚ))).1,
            diskUsed := truncQ
              (match pyFloat (pyOr (getField data "diskTotal") (JVal.num 0)),
                     pyFloat (pyOr (getField data "diskUsed") (JVal.num 0)) with
               | Except.ok a, Except.ok b => (a, b)
               | _, _ => ((0 : ℚ), (0 : ℚ))).2,
            netIn := nIn, netOut := nOut },
        ramRatio := if rt > 0 then ru / rt else 0,
        resourceAlerted :=
          decide (c ≥ cpuHigh ∨ (if rt > 0 then ru / rt else 0) ≥ ramRatioHigh),
        alerts :=
          if c ≥ cpuHigh ∨ (if rt > 0 then ru / rt else 0) ≥ ramRatioHigh then
            [mkAlertRow now
              (pyStr (pyOr (getField data "hostname") (JVal.str "unknown")))
              "RESOURCE"
              (AlertDesc.resource
                ((if c ≥ cpuHigh then [BreachReason.cpuHigh] else []) ++
                 (if (if rt > 0 then ru / rt else 0) ≥ ramRatioHigh then
                    [BreachReason.ramHigh] else [])))
              "CRITICAL" "Critical issue" none none (some c)
              (some (if rt > 0 then ru / rt else 0))]
          else [] } := by
  unfold collect_metrics
  rw [hrt, hru, hc, hni, hno]

/-- C7: the ram ratio computed by collect-metrics equals ramUsed/ramTotal
when ramTotal is positive and exactly 0 otherwise, and its computation
never fails: whenever the other numeric coercions succeed the request
succeeds, for every value of ramTotal including 0. -/
theorem c7_ram_ratio (cpuHigh ramRatioHigh now : ℚ)
    (data : List (String × JVal)) (rt ru : ℚ)
    (hrt : pyFloat (pyOr (getField data "ramTotal") (JVal.num 0)) = Except.ok rt)
    (hru : pyFloat (pyOr (getField data "ramUsed") (JVal.num 0)) = Except.ok ru) :
    (∀ r, collect_metrics cpuHigh ramRatioHigh now data = Except.ok r →
        r.ramRatio = if rt > 0 then ru / rt else 0) ∧
    (∀ (c : ℚ) (nIn nOut : ℤ),
        pyFloat (pyOr (getField data "cpu") (JVal.num 0)) = Except.ok c →
        pyInt (pyOr (getField data "netIn") (JVal.num 0)) = Except.ok nIn →
        pyInt (pyOr (getField data "netOut") (JVal.num 0)) = Except.ok nOut →
        ∃ r, collect_metrics cpuHigh ramRatioHigh now data = Except.ok r ∧
          r.ramRatio = if rt > 0 then ru / rt else 0) := by
  constructor
  · intro r h
    unfold collect_metrics at h
    simp only [hrt, hru] at h
    split at h
    · exact Except.noConfusion h
    · split at h
      · exact Except.noConfusion h
      · split at h
        · exact Except.noConfusion h
        · injection h with h
          subst h
          rfl
  · intro c nIn nOut hc hni hno
    exact ⟨_, collect_metrics_ok cpuHigh ramRatioHigh now data rt ru c nIn nOut
      hrt hru hc hni hno, rfl⟩

theorem c7_witness :
    ∃ r, collect_metrics 90 1 0
        [("ramTotal", JVal.num 2), ("ramUsed", JVal.num 1)] = Except.ok r ∧
      r.ramRatio = if (2 : ℚ) > 0 then (1 : ℚ) / 2 else 0 :=
  (c7_ram_ratio 90 1 0 [("ramTotal", JVal.num 2), ("ramUsed", JVal.num 1)]
      2 1 (by decide) (by decide)).2 0 0 0 (by decide) (by decide) (by decide)


/-- C4: a metric ingestion creates a RESOURCE alert iff cpu >= CPU_HIGH or
ram_ratio >= RAM_RATIO_HIGH; exactly one alert per breaching ingestion,
appended to the alert store whatever its prior content (no suppression);
the description lists exactly the breached thresholds; and the
resource_alerted response flag is true iff the condition held. -/
theorem c4_resource_alert (cpuHigh ramRatioHigh now : ℚ) (body : JVal)
    (store : List AlertRow) (r : MetricsResult) (st : List AlertRow)
    (h : collect_metrics_store cpuHigh ramRatioHigh now body store =
      Except.ok (r, st)) :
    (r.resourceAlerted = true ↔
      (r.entry.cpu ≥ cpuHigh ∨ r.ramRatio ≥ ramRatioHigh)) ∧
    st = store ++ r.alerts ∧
    ((r.entry.cpu ≥ cpuHigh ∨ r.ramRatio ≥ ramRatioHigh) →
      ∃ reasons, r.alerts =
          [mkAlertRow now r.hostname "RESOURCE" (AlertDesc.resource reasons)
            "CRITICAL" "Critical issue" none none (some r.entry.cpu)
            (some r.ramRatio)] ∧
        (BreachReason.cpuHigh ∈ reasons ↔ r.entry.cpu ≥ cpuHigh) ∧
        (BreachReason.ramHigh ∈ reasons ↔ r.ramRatio ≥ ramRatioHigh)) ∧
    (¬ (r.entry.cpu ≥ cpuHigh ∨ r.ramRatio ≥ ramRatioHigh) →
      r.alerts = []) := by
  unfold collect_metrics_store at h
  split at h
  · exact Except.noConfusion h
  · rename_i r0 hreq
    injection h with h
    injection h with hA hB
    subst hA
    subst hB
    unfold collect_metrics_req at hreq
    split at hreq
    case h_2 => exact Except.noConfusion hreq
    rename_i fields
    unfold collect_metrics at hreq
    cases hrt : pyFloat (pyOr (getField fields "ramTotal") (JVal.num 0)) with
    | error e =>
        simp only [hrt] at hreq
        exact Except.noConfusion hreq
    | ok rt =>
    cases hru : pyFloat (pyOr (getField fields "ramUsed") (JVal.num 0)) with
    | error e =>
        simp only [hrt, hru] at hreq
        exact Except.noConfusion hreq
    | ok ru =>
    cases hc : pyFloat (pyOr (getField fields "cpu") (JVal.num 0)) with
    | error e =>
        simp only [hrt, hru, hc] at hreq
        exact Except.noConfusion hreq
    | ok c =>
    cases hni : pyInt (pyOr (getField fields "netIn") (JVal.num 0)) with
    | error e =>
        simp only [hrt, hru, hc, hni] at hreq
        exact Except.noConfusion hreq
    | ok nIn =>
    cases hno : pyInt (pyOr (getField fields "netOut") (JVal.num 0)) with
    | error e =>
        simp only [hrt, hru, hc, hni, hno] at hreq
        exact Except.noConfusion hreq
    | ok nOut =>
    simp only [hrt, hru, hc, hni, hno, Except.ok.injEq] at hreq
    subst hreq
    refine ⟨by simp, by rw [foldl_insertAlertStore], ?_, ?_⟩
    · intro hbr
      simp only at hbr
      refine ⟨(if c ≥ cpuHigh then [BreachReason.cpuHigh] else []) ++
        (if (if rt > 0 then ru / rt else 0) ≥ ramRatioHigh then
          [BreachReason.ramHigh] else []), ?_, ?_, ?_⟩
      · simp only [if_pos hbr]
      · by_cases hcb : c ≥ cpuHigh <;>
          by_cases hrb : (if rt > 0 then ru / rt else 0) ≥ ramRatioHigh <;>
          simp_all
      · by_cases hcb : c ≥ cpuHigh <;>
          by_cases hrb : (if rt > 0 then ru / rt else 0) ≥ ramRatioHigh <;>
          simp_all
    · intro hbr
      simp only at hbr
      simp only [if_neg hbr]

theorem c4_witness :
    ∃ r st, collect_metrics_store 90 1 0
        (JVal.obj [("hostname", JVal.str "h1"), ("cpu", JVal.num 95)]) [] =
        Except.ok (r, st) ∧
      (r.resourceAlerted = true ↔ (r.entry.cpu ≥ 90 ∨ r.ramRatio ≥ 1)) ∧
      st = [] ++ r.alerts := by
  have hok : collect_metrics_store 90 1 0
      (JVal.obj [("hostname", JVal.str "h1"), ("cpu", JVal.num 95)]) [] =
      Except.ok
        ({ hostname := "h1",
           entry := { ts := 0, name := "h1", ip := "", cpu := 95, ramTotal := 0,
                      ramUsed := 0, diskTotal := 0, diskUsed := 0, netIn := 0,
                      netOut := 0 },
           ramRatio := 0, resourceAlerted := true,
           alerts := [{ ts := 0, hostname := "h1", category := "RESOURCE",
                        severity := "CRITICAL", label := "Critical issue",
                        description := AlertDesc.resource [BreachReason.cpuHigh],
                        file_path := none, sha256 := none, cpu := some 95,
                        ramRatio := some 0 }] },
         [{ ts := 0, hostname := "h1", category := "RESOURCE",
            severity := "CRITICAL", label := "Critical issue",
            description := AlertDesc.resource [BreachReason.cpuHigh],
            file_path := none, sha256 := none, cpu := some 95,
            ramRatio := some 0 }]) := by decide
  have hc4 := c4_resource_alert 90 1 0
    (JVal.obj [("hostname", JVal.str "h1"), ("cpu", JVal.num 95)]) [] _ _ hok
  exact ⟨_, _, hok, hc4.1, hc4.2.1⟩

/-- C2 counterexample: a payload whose cpu field is the truthy non-numeric
string "abc" is rejected (float() raises), instead of being coerced to 0. -/
theorem c2_counterexample :
    collect_metrics 90 1 0 [("cpu", JVal.str "abc")] = Except.error () := by
  decide

/-- A metric ingestion is rejected exactly when one of the five unguarded
numeric coercions (ramTotal, ramUsed, cpu, netIn, netOut, each after the
falsy-to-0 default) raises; the guarded disk coercions never reject. -/
theorem collect_metrics_err (cpuHigh ramRatioHigh now : ℚ)
    (data : List (String × JVal)) :
    collect_metrics cpuHigh ramRatioHigh now data = Except.error () ↔
      (pyFloat (pyOr (getField data "ramTotal") (JVal.num 0)) =
          Except.error () ∨
       pyFloat (pyOr (getField data "ramUsed") (JVal.num 0)) =
          Except.error () ∨
       pyFloat (pyOr (getField data "cpu") (JVal.num 0)) = Except.error () ∨
       pyInt (pyOr (getField data "netIn") (JVal.num 0)) = Except.error () ∨
       pyInt (pyOr (getField data "netOut") (JVal.num 0)) =
          Except.error ()) := by
  cases h1 : pyFloat (pyOr (getField data "ramTotal") (JVal.num 0)) with
  | error e =>
      cases e
      apply iff_of_true
      · unfold collect_metrics
        simp [h1]
      · exact Or.inl rfl
  | ok rt =>
  cases h2 : pyFloat (pyOr (getField data "ramUsed") (JVal.num 0)) with
  | error e =>
      cases e
      apply iff_of_true
      · unfold collect_metrics
        simp [h1, h2]
      · exact Or.inr (Or.inl rfl)
  | ok ru =>
  cases h3 : pyFloat (pyOr (getField data "cpu") (JVal.num 0)) with
  | error e =>
      cases e
      apply iff_of_true
      · unfold collect_metrics
        simp [h1, h2, h3]
      · exact Or.inr (Or.inr (Or.inl rfl))
  | ok c =>
  cases h4 : pyInt (pyOr (getField data "netIn") (JVal.num 0)) with
  | error e =>
      cases e
      apply iff_of_true
      · unfold collect_metrics
        simp [h1, h2, h3, h4]
      · exact Or.inr (Or.inr (Or.inr (Or.inl rfl)))
  | ok nIn =>
  cases h5 : pyInt (pyOr (getField data "netOut") (JVal.num 0)) with
  | error e =>
      cases e
      apply iff_of_true
      · unfold collect_metrics
        simp [h1, h2, h3, h4, h5]
      · exact Or.inr (Or.inr (Or.inr (Or.inr rfl)))
  | ok nOut =>
      apply iff_of_false
      · rw [collect_metrics_ok cpuHigh ramRatioHigh now data rt ru c nIn nOut
          h1 h2 h3 h4 h5]
        simp
      · simp [h1, h2, h3, h4, h5]

/-- C2 as amended: a missing or falsy value in any one of the seven metric
fields is coerced to 0 for that field without rejecting the request, and a
truthy non-numeric diskTotal or diskUsed is likewise coerced to 0; but a
truthy non-numeric value in any one of cpu, ramTotal, ramUsed, netIn or
netOut raises and rejects the request - and those five coercions are the
only causes of rejection. -/
theorem c2_amended_coercion (cpuHigh ramRatioHigh now : ℚ) :
    (∀ data : List (String × JVal),
        collect_metrics cpuHigh ramRatioHigh now data = Except.error () ↔
          (pyFloat (pyOr (getField data "ramTotal") (JVal.num 0)) =
              Except.error () ∨
           pyFloat (pyOr (getField data "ramUsed") (JVal.num 0)) =
              Except.error () ∨
           pyFloat (pyOr (getField data "cpu") (JVal.num 0)) =
              Except.error () ∨
           pyInt (pyOr (getField data "netIn") (JVal.num 0)) =
              Except.error () ∨
           pyInt (pyOr (getField data "netOut") (JVal.num 0)) =
              Except.error ())) ∧
    (∀ (data : List (String × JVal)) (r : MetricsResult),
        collect_metrics cpuHigh ramRatioHigh now data = Except.ok r →
        (truthy (getField data "cpu") = false → r.entry.cpu = 0) ∧
        (truthy (getField data "ramTotal") = false →
            r.entry.ramTotal = 0 ∧ r.ramRatio = 0) ∧
        (truthy (getField data "ramUsed") = false → r.entry.ramUsed = 0) ∧
        (truthy (getField data "diskTotal") = false →
            r.entry.diskTotal = 0) ∧
        (truthy (getField data "diskUsed") = false → r.entry.diskUsed = 0) ∧
        (truthy (getField data "netIn") = false → r.entry.netIn = 0) ∧
        (truthy (getField data "netOut") = false → r.entry.netOut = 0) ∧
        ((pyFloat (pyOr (getField data "diskTotal") (JVal.num 0)) =
              Except.error () ∨
          pyFloat (pyOr (getField data "diskUsed") (JVal.num 0)) =
              Except.error ()) →
            r.entry.diskTotal = 0 ∧ r.entry.diskUsed = 0)) ∧
    (∀ data : List (String × JVal),
        ((truthy (getField data "cpu") = true ∧
            pyFloat (getField data "cpu") = Except.error ()) ∨
         (truthy (getField data "ramTotal") = true ∧
            pyFloat (getField data "ramTotal") = Except.error ()) ∨
         (truthy (getField data "ramUsed") = true ∧
            pyFloat (getField data "ramUsed") = Except.error ()) ∨
         (truthy (getField data "netIn") = true ∧
            pyInt (getField data "netIn") = Except.error ()) ∨
         (truthy (getField data "netOut") = true ∧
            pyInt (getField data "netOut") = Except.error ())) →
        collect_metrics cpuHigh ramRatioHigh now data = Except.error ()) := by
  refine ⟨fun data => collect_metrics_err cpuHigh ramRatioHigh now data,
    ?_, ?_⟩
  · intro data r h
    unfold collect_metrics at h
    cases h1 : pyFloat (pyOr (getField data "ramTotal") (JVal.num 0)) with
    | error e =>
        simp only [h1] at h
        exact Except.noConfusion h
    | ok rt =>
    cases h2 : pyFloat (pyOr (getField data "ramUsed") (JVal.num 0)) with
    | error e =>
        simp only [h1, h2] at h
        exact Except.noConfusion h
    | ok ru =>
    cases h3 : pyFloat (pyOr (getField data "cpu") (JVal.num 0)) with
    | error e =>
        simp only [h1, h2, h3] at h
        exact Except.noConfusion h
    | ok c =>
    cases h4 : pyInt (pyOr (getField data "netIn") (JVal.num 0)) with
    | error e =>
        simp only [h1, h2, h3, h4] at h
        exact Except.noConfusion h
    | ok nIn =>
    cases h5 : pyInt (pyOr (getField data "netOut") (JVal.num 0)) with
    | error e =>
        simp only [h1, h2, h3, h4, h5] at h
        exact Except.noConfusion h
    | ok nOut =>
    simp only [h1, h2, h3, h4, h5, Except.ok.injEq] at h
    subst h
    refine ⟨?_, ?_, ?_, ?_, ?_, ?_, ?_, ?_⟩
    · intro hf
      have e1 : pyOr (getField data "cpu") (JVal.num 0) = JVal.num 0 := by
        simp [pyOr, hf]
      rw [e1] at h3
      simp only [pyFloat, Except.ok.injEq] at h3
      subst h3
      rfl
    · intro hf
      have e1 : pyOr (getField data "ramTotal") (JVal.num 0) = JVal.num 0 := by
        simp [pyOr, hf]
      rw [e1] at h1
      simp only [pyFloat, Except.ok.injEq] at h1
      subst h1
      constructor
      · show truncQ 0 = 0
        decide
      · show (if (0 : ℚ) > 0 then ru / 0 else 0) = 0
        rw [if_neg (lt_irrefl (0 : ℚ))]
    · intro hf
      have e1 : pyOr (getField data "ramUsed") (JVal.num 0) = JVal.num 0 := by
        simp [pyOr, hf]
      rw [e1] at h2
      simp only [pyFloat, Except.ok.injEq] at h2
      subst h2
      show truncQ 0 = 0
      decide
    · intro hf
      have e1 : pyOr (getField data "diskTotal") (JVal.num 0) = JVal.num 0 := by
        simp [pyOr, hf]
      have e2 : pyFloat (pyOr (getField data "diskTotal") (JVal.num 0)) =
          Except.ok 0 := by
        rw [e1]
        rfl
      rw [e2]
      cases hdu : pyFloat (pyOr (getField data "diskUsed") (JVal.num 0)) with
      | ok b =>
          show truncQ 0 = 0
          decide
      | error e =>
          show truncQ 0 = 0
          decide
    · intro hf
      have e1 : pyOr (getField data "diskUsed") (JVal.num 0) = JVal.num 0 := by
        simp [pyOr, hf]
      have e2 : pyFloat (pyOr (getField data "diskUsed") (JVal.num 0)) =
          Except.ok 0 := by
        rw [e1]
        rfl
      rw [e2]
      cases hdt : pyFloat (pyOr (getField data "diskTotal") (JVal.num 0)) with
      | ok a =>
          show truncQ 0 = 0
          decide
      | error e =>
          show truncQ 0 = 0
          decide
    · intro hf
      have e1 : pyOr (getField data "netIn") (JVal.num 0) = JVal.num 0 := by
        simp [pyOr, hf]
      rw [e1] at h4
      simp only [pyInt, Except.ok.injEq] at h4
      subst h4
      show truncQ 0 = 0
      decide
    · intro hf
      have e1 : pyOr (getField data "netOut") (JVal.num 0) = JVal.num 0 := by
        simp [pyOr, hf]
      rw [e1] at h5
      simp only [pyInt, Except.ok.injEq] at h5
      subst h5
      show truncQ 0 = 0
      decide
    · intro hd
      cases hd with
      | inl hdt =>
          rw [hdt]
          constructor
          · show truncQ 0 = 0
            decide
          · show truncQ 0 = 0
            decide
      | inr hdu =>
          rw [hdu]
          cases hdt : pyFloat (pyOr (getField data "diskTotal")
              (JVal.num 0)) with
          | ok a =>
              constructor
              · show truncQ 0 = 0
                decide
              · show truncQ 0 = 0
                decide
          | error e =>
              constructor
              · show truncQ 0 = 0
                decide
              · show truncQ 0 = 0
                decide
  · intro data hdis
    rw [collect_metrics_err cpuHigh ramRatioHigh now data]
    rcases hdis with ⟨ht, he⟩ | ⟨ht, he⟩ | ⟨ht, he⟩ | ⟨ht, he⟩ | ⟨ht, he⟩
    · refine Or.inr (Or.inr (Or.inl ?_))
      have e1 : pyOr (getField data "cpu") (JVal.num 0) =
          getField data "cpu" := by
        simp [pyOr, ht]
      rw [e1, he]
    · refine Or.inl ?_
      have e1 : pyOr (getField data "ramTotal") (JVal.num 0) =
          getField data "ramTotal" := by
        simp [pyOr, ht]
      rw [e1, he]
    · refine Or.inr (Or.inl ?_)
      have e1 : pyOr (getField data "ramUsed") (JVal.num 0) =
          getField data "ramUsed" := by
        simp [pyOr, ht]
      rw [e1, he]
    · refine Or.inr (Or.inr (Or.inr (Or.inl ?_)))
      have e1 : pyOr (getField data "netIn") (JVal.num 0) =
          getField data "netIn" := by
        simp [pyOr, ht]
      rw [e1, he]
    · refine Or.inr (Or.inr (Or.inr (Or.inr ?_)))
      have e1 : pyOr (getField data "netOut") (JVal.num 0) =
          getField data "netOut" := by
        simp [pyOr, ht]
      rw [e1, he]

theorem c2_witness :
    collect_metrics 90 1 0 [("netOut", JVal.str "abc")] = Except.error () ∧
    ∃ r, collect_metrics 90 1 0 [("diskTotal", JVal.str "x")] =
        Except.ok r ∧
      r.entry.cpu = 0 ∧ r.entry.diskTotal = 0 ∧ r.entry.diskUsed = 0 := by
  constructor
  · exact (c2_amended_coercion 90 1 0).2.2 [("netOut", JVal.str "abc")]
      (Or.inr (Or.inr (Or.inr (Or.inr ⟨by decide, by decide⟩))))
  · have hok : collect_metrics 90 1 0 [("diskTotal", JVal.str "x")] =
        Except.ok
          { hostname := "unknown",
            entry := { ts := 0, name := "unknown", ip := "", cpu := 0,
                       ramTotal := 0, ramUsed := 0, diskTotal := 0,
                       diskUsed := 0, netIn := 0, netOut := 0 },
            ramRatio := 0, resourceAlerted := false, alerts := [] } := by
      decide
    have h2 := (c2_amended_coercion 90 1 0).2.1 [("diskTotal", JVal.str "x")]
      _ hok
    exact ⟨_, hok, h2.1 (by decide),
      (h2.2.2.2.2.2.2.2 (Or.inl (by decide))).1,
      (h2.2.2.2.2.2.2.2 (Or.inl (by decide))).2⟩

/-- Characterization of one entry's IOC candidate. -/
theorem shaCand_spec (hf : List (String × JVal)) (s : String) :
    shaCand hf = some s ↔
      ∃ t, getField hf "sha256" = JVal.str t ∧ t ≠ "" ∧ t.data.length = 64 ∧
        s = lowerStr t := by
  cases hv : getField hf "sha256" with
  | str t =>
      have hc : shaCand hf =
          (if t ≠ "" ∧ t.data.length = 64 then some (lowerStr t) else none) := by
        unfold shaCand
        rw [hv]
      rw [hc]
      by_cases hcond : t ≠ "" ∧ t.data.length = 64
      · rw [if_pos hcond]
        constructor
        · intro h
          injection h with h
          exact ⟨t, rfl, hcond.1, hcond.2, h.symm⟩
        · rintro ⟨t2, ht2, h1, h2, hs⟩
          injection ht2 with ht2
          subst ht2
          rw [hs]
      · rw [if_neg hcond]
        constructor
        · intro h
          exact Option.noConfusion h
        · rintro ⟨t2, ht2, hne, hlen, h3⟩
          injection ht2 with ht2
          subst ht2
          exact absurd ⟨hne, hlen⟩ hcond
  | null =>
      have hc : shaCand hf = none := by
        unfold shaCand
        rw [hv]
      rw [hc]
      simp [hv]
  | bool b =>
      have hc : shaCand hf = none := by
        unfold shaCand
        rw [hv]
      rw [hc]
      simp [hv]
  | num q =>
      have hc : shaCand hf = none := by
        unfold shaCand
        rw [hv]
      rw [hc]
      simp [hv]
  | arr xs =>
      have hc : shaCand hf = none := by
        unfold shaCand
        rw [hv]
      rw [hc]
      simp [hv]
  | obj fs =>
      have hc : shaCand hf = none := by
        unfold shaCand
        rw [hv]
      rw [hc]
      simp [hv]

/-- Membership in the IOC candidate set built by the batch loop. -/
theorem processEntries_shaSet (hostname : String) (entries : List JVal)
    (rows : List HashRow) (shas : Finset String)
    (h : processEntries hostname entries = Except.ok (rows, shas)) (s : String) :
    s ∈ shas ↔ ∃ hf, JVal.obj hf ∈ entries ∧
      pyStr (pyOr (getField hf "file_path") (JVal.str "")) ≠ "" ∧
      shaCand hf = some s := by
  induction entries generalizing rows shas with
  | nil =>
      simp only [processEntries, Except.ok.injEq, Prod.mk.injEq] at h
      obtain ⟨hr, hs⟩ := h
      subst hr
      subst hs
      simp
  | cons hd tl ih =>
      simp only [processEntries] at h
      cases hhd : processEntry hostname hd with
      | error e =>
          rw [hhd] at h
          exact Except.noConfusion h
      | ok re =>
          rw [hhd] at h
          cases htl : processEntries hostname tl with
          | error e =>
              rw [htl] at h
              exact Except.noConfusion h
          | ok pr =>
              rw [htl] at h
              simp only [Except.ok.injEq, Prod.mk.injEq] at h
              obtain ⟨hr, hs⟩ := h
              subst hr
              subst hs
              have IH := ih pr.1 pr.2 (by rw [htl])
              cases hd with
              | obj hf =>
                  simp only [processEntry] at hhd
                  by_cases hfp :
                      pyStr (pyOr (getField hf "file_path") (JVal.str "")) = ""
                  · rw [if_pos hfp] at hhd
                    injection hhd with hhd
                    subst hhd
                    simp only [List.mem_cons]
                    rw [IH]
                    constructor
                    · rintro ⟨hf2, hmem, hrest⟩
                      exact ⟨hf2, Or.inr hmem, hrest⟩
                    · rintro ⟨hf2, hor, hfp2, hcand2⟩
                      cases hor with
                      | inl heq =>
                          injection heq with heq
                          subst heq
                          exact absurd hfp hfp2
                      | inr hmem => exact ⟨hf2, hmem, hfp2, hcand2⟩
                  · rw [if_neg hfp] at hhd
                    injection hhd with hhd
                    subst hhd
                    cases hcand : shaCand hf with
                    | none =>
                        simp only [hcand, List.mem_cons]
                        rw [IH]
                        constructor
                        · rintro ⟨hf2, hmem, hrest⟩
                          exact ⟨hf2, Or.inr hmem, hrest⟩
                        · rintro ⟨hf2, hor, hfp2, hcand2⟩
                          cases hor with
                          | inl heq =>
                              injection heq with heq
                              subst heq
                              rw [hcand] at hcand2
                              exact Option.noConfusion hcand2
                          | inr hmem => exact ⟨hf2, hmem, hfp2, hcand2⟩
                    | some c =>
                        simp only [hcand, List.mem_cons, Finset.mem_insert]
                        rw [IH]
                        constructor
                        · rintro (hsc | ⟨hf2, hmem, hrest⟩)
                          · subst hsc
                            exact ⟨hf, Or.inl rfl, hfp, hcand⟩
                          · exact ⟨hf2, Or.inr hmem, hrest⟩
                        · rintro ⟨hf2, hor, hfp2, hcand2⟩
                          cases hor with
                          | inl heq =>
                              injection heq with heq
                              subst heq
                              rw [hcand] at hcand2
                              injection hcand2 with hcand2
                              exact Or.inl hcand2.symm
                          | inr hmem => exact Or.inr ⟨hf2, hmem, hfp2, hcand2⟩
              | null => exact absurd hhd (by simp [processEntry])
              | bool b => exact absurd hhd (by simp [processEntry])
              | num q => exact absurd hhd (by simp [processEntry])
              | str t => exact absurd hhd (by simp [processEntry])
              | arr xs => exact absurd hhd (by simp [processEntry])

/-- C9 as amended: the IOC candidate set keeps exactly the sha256 values
that are truthy strings of length exactly 64 from entries with a truthy
file_path, lowercased; there is no hexadecimal-character validation.
Entries whose sha256 is absent, not a string, or not of length 64 are
excluded, as are entries without a file_path. -/
theorem c9_amended_sha_filter (hostname : String) (entries : List JVal)
    (rows : List HashRow) (shas : Finset String)
    (h : processEntries hostname entries = Except.ok (rows, shas)) (s : String) :
    s ∈ shas ↔ ∃ hf, JVal.obj hf ∈ entries ∧
      pyStr (pyOr (getField hf "file_path") (JVal.str "")) ≠ "" ∧
      ∃ t, getField hf "sha256" = JVal.str t ∧ t ≠ "" ∧ t.data.length = 64 ∧
        s = lowerStr t := by
  rw [processEntries_shaSet hostname entries rows shas h s]
  apply exists_congr
  intro hf
  apply and_congr_right
  intro _
  apply and_congr_right
  intro _
  exact shaCand_spec hf s

/-- C9 counterexample: an entry whose sha256 is 64 "z" characters - not a
hexadecimal string - is nevertheless kept in the IOC candidate set; the
claimed hex-character validation does not exist. -/
theorem c9_counterexample :
    processEntries "h1"
        [JVal.obj [("file_path", JVal.str "/f"), ("sha256", JVal.str zSha)]] =
      Except.ok ([⟨"h1", "/f", some zSha⟩], {zSha}) ∧
    zSha ∈ ({zSha} : Finset String) ∧
    specWellFormedSha zSha = false ∧ zSha.data.length = 64 := by
  refine ⟨by decide, by decide, by decide, by decide⟩

theorem c9_witness :
    zSha ∈ ({zSha} : Finset String) ↔
      ∃ hf, JVal.obj hf ∈
          [JVal.obj [("file_path", JVal.str "/f"), ("sha256", JVal.str zSha)]] ∧
        pyStr (pyOr (getField hf "file_path") (JVal.str "")) ≠ "" ∧
        ∃ t, getField hf "sha256" = JVal.str t ∧ t ≠ "" ∧
          t.data.length = 64 ∧ zSha = lowerStr t :=
  c9_amended_sha_filter "h1"
    [JVal.obj [("file_path", JVal.str "/f"), ("sha256", JVal.str zSha)]]
    [⟨"h1", "/f", some zSha⟩] {zSha} (by decide) zSha

/-- C10 counterexample: a hash-batch body with no hashes field at all is
accepted (the falsy value defaults to an empty list), instead of failing
with a client error as claimed; the whole request then succeeds. -/
theorem c10_counterexample :
    parseHashRequest (JVal.obj [("hostname", JVal.str "h1")]) =
      Except.ok ("h1", []) ∧
    collect_hashes false ∅ 0 (JVal.obj [("hostname", JVal.str "h1")]) =
      Except.ok ⟨"h1", [], ∅, ∅, []⟩ :=
  ⟨rfl, by decide⟩

/-- C10 as amended: a hash-batch request fails with a client error (nothing
persisted) iff the body is not an object, or the hostname field is falsy,
or strips to the empty string, or is a truthy non-string, or the hashes
field is truthy and not a list; a missing or falsy hashes field is treated
as an empty list and the request is accepted. -/
theorem c10_amended_validation :
    (∀ body : JVal, (∀ fields, body ≠ JVal.obj fields) →
        parseHashRequest body = Except.error ()) ∧
    (∀ fields, truthy (getField fields "hostname") = false →
        parseHashRequest (JVal.obj fields) = Except.error ()) ∧
    (∀ fields s, getField fields "hostname" = JVal.str s → pyStrip s = "" →
        parseHashRequest (JVal.obj fields) = Except.error ()) ∧
    (∀ fields v, getField fields "hostname" = v → truthy v = true →
        (∀ s, v ≠ JVal.str s) →
        parseHashRequest (JVal.obj fields) = Except.error ()) ∧
    (∀ fields s, getField fields "hostname" = JVal.str s → pyStrip s ≠ "" →
        truthy (getField fields "hashes") = false →
        parseHashRequest (JVal.obj fields) = Except.ok (pyStrip s, [])) ∧
    (∀ fields s xs, getField fields "hostname" = JVal.str s → pyStrip s ≠ "" →
        getField fields "hashes" = JVal.arr xs →
        parseHashRequest (JVal.obj fields) = Except.ok (pyStrip s, xs)) ∧
    (∀ fields s v, getField fields "hostname" = JVal.str s → pyStrip s ≠ "" →
        getField fields "hashes" = v → truthy v = true →
        (∀ xs, v ≠ JVal.arr xs) →
        parseHashRequest (JVal.obj fields) = Except.error ()) ∧
    (∀ (c : Bool) (ioc : Finset String) (now : ℚ) (body : JVal)
        (store : List AlertRow),
        parseHashRequest body = Except.error () →
        collect_hashes_store c ioc now body store = Except.error ()) := by
  have strip_empty : pyStrip "" = "" := by decide
  refine ⟨?_, ?_, ?_, ?_, ?_, ?_, ?_, ?_⟩
  · intro body hno
    cases body with
    | obj fields => exact absurd rfl (hno fields)
    | null => rfl
    | bool b => rfl
    | num q => rfl
    | str s => rfl
    | arr xs => rfl
  · intro fields hfalsy
    have h0 : pyOr (getField fields "hostname") (JVal.str "") = JVal.str "" := by
      simp [pyOr, hfalsy]
    simp only [parseHashRequest, h0]
    cases hh : pyOr (getField fields "hashes") (JVal.arr []) with
    | arr xs =>
        show (if pyStrip "" = "" then Except.error ()
              else Except.ok (pyStrip "", xs)) = Except.error ()
        rw [if_pos strip_empty]
    | null => rfl
    | bool b => rfl
    | num q => rfl
    | str t => rfl
    | obj fs => rfl
  · intro fields s hs hstrip
    have h0 : ∃ s2, pyOr (getField fields "hostname") (JVal.str "") =
        JVal.str s2 ∧ pyStrip s2 = "" := by
      by_cases hs0 : s = ""
      · subst hs0
        exact ⟨"", by simp [pyOr, hs, truthy], strip_empty⟩
      · refine ⟨s, ?_, hstrip⟩
        simp [pyOr, hs, truthy, hs0]
    obtain ⟨s2, h0, hstrip2⟩ := h0
    simp only [parseHashRequest, h0]
    cases hh : pyOr (getField fields "hashes") (JVal.arr []) with
    | arr xs =>
        show (if pyStrip s2 = "" then Except.error ()
              else Except.ok (pyStrip s2, xs)) = Except.error ()
        rw [if_pos hstrip2]
    | null => rfl
    | bool b => rfl
    | num q => rfl
    | str t => rfl
    | obj fs => rfl
  · intro fields v hv htr hnostr
    have h0 : pyOr (getField fields "hostname") (JVal.str "") = v := by
      simp [pyOr, hv, htr]
    cases v with
    | str s => exact absurd rfl (hnostr s)
    | null => simp only [parseHashRequest, h0]
    | bool b => simp only [parseHashRequest, h0]
    | num q => simp only [parseHashRequest, h0]
    | arr xs => simp only [parseHashRequest, h0]
    | obj fs => simp only [parseHashRequest, h0]
  · intro fields s hs hstrip hfalsy
    have hs0 : s ≠ "" := by
      intro h
      subst h
      exact hstrip strip_empty
    have h0 : pyOr (getField fields "hostname") (JVal.str "") = JVal.str s := by
      simp [pyOr, hs, truthy, hs0]
    have h1 : pyOr (getField fields "hashes") (JVal.arr []) = JVal.arr [] := by
      simp [pyOr, hfalsy]
    simp only [parseHashRequest, h0, h1]
    rw [if_neg hstrip]
  · intro fields s xs hs hstrip hxs
    have hs0 : s ≠ "" := by
      intro h
      subst h
      exact hstrip strip_empty
    have h0 : pyOr (getField fields "hostname") (JVal.str "") = JVal.str s := by
      simp [pyOr, hs, truthy, hs0]
    have h1 : pyOr (getField fields "hashes") (JVal.arr []) = JVal.arr xs := by
      by_cases hxe : xs = []
      · subst hxe
        simp [pyOr, hxs, truthy]
      · simp [pyOr, hxs, truthy, hxe]
    simp only [parseHashRequest, h0, h1]
    rw [if_neg hstrip]
  · intro fields s v hs hstrip hv htr hnoarr
    have hs0 : s ≠ "" := by
      intro h
      subst h
      exact hstrip strip_empty
    have h0 : pyOr (getField fields "hostname") (JVal.str "") = JVal.str s := by
      simp [pyOr, hs, truthy, hs0]
    have h1 : pyOr (getField fields "hashes") (JVal.arr []) = v := by
      simp [pyOr, hv, htr]
    cases v with
    | arr xs => exact absurd rfl (hnoarr xs)
    | null => simp only [parseHashRequest, h0, h1]
    | bool b => simp only [parseHashRequest, h0, h1]
    | num q => simp only [parseHashRequest, h0, h1]
    | str t => simp only [parseHashRequest, h0, h1]
    | obj fs => simp only [parseHashRequest, h0, h1]
  · intro c ioc now body store hparse
    unfold collect_hashes_store collect_hashes
    rw [hparse]
theorem c10_witness :
    parseHashRequest (JVal.obj [("hostname", JVal.str " h1 "),
        ("hashes", JVal.num 5)]) = Except.error () ∧
    parseHashRequest (JVal.obj [("hostname", JVal.str "h2"),
        ("hashes", JVal.arr [JVal.num 7])]) =
      Except.ok (pyStrip "h2", [JVal.num 7]) :=
  ⟨c10_amended_validation.2.2.2.2.2.2.1
      [("hostname", JVal.str " h1 "), ("hashes", JVal.num 5)] " h1 "
      (JVal.num 5) rfl (by decide) rfl (by decide)
      (fun xs h => JVal.noConfusion h),
   c10_amended_validation.2.2.2.2.2.1
      [("hostname", JVal.str "h2"), ("hashes", JVal.arr [JVal.num 7])] "h2"
      [JVal.num 7] rfl (by decide) rfl⟩

/-- An alert emitted by the HASH alert loop always carries category HASH
and the request hostname. -/
theorem rowAlert_mem (now : ℚ) (hostname : String) (bad : Finset String)
    (r : HashRow) (a : AlertRow) (h : rowAlert now hostname bad r = some a) :
    a.category = "HASH" ∧ a.hostname = hostname := by
  unfold rowAlert at h
  split at h
  · split at h
    · injection h with h
      subst h
      exact ⟨rfl, rfl⟩
    · exact Option.noConfusion h
  · exact Option.noConfusion h

/-- The HASH alert loop emits exactly one alert per row whose sha256 is a
nonempty string whose lowercase form is in the matched bad set. -/
theorem filterMap_rowAlert_length (now : ℚ) (hostname : String)
    (bad : Finset String) :
    ∀ rows : List HashRow,
      (rows.filterMap (rowAlert now hostname bad)).length =
      (rows.filter (fun r =>
          match r.sha256 with
          | some s => decide (s ≠ "" ∧ lowerStr s ∈ bad)
          | none => false)).length
  | [] => rfl
  | r :: rest => by
      have ih := filterMap_rowAlert_length now hostname bad rest
      cases hsha : r.sha256 with
      | none =>
          have hra : rowAlert now hostname bad r = none := by
            unfold rowAlert
            rw [hsha]
          rw [List.filterMap_cons, List.filter_cons, hra]
          simp only [hsha]
          simpa using ih
      | some s =>
          by_cases hp : s ≠ "" ∧ lowerStr s ∈ bad
          · have hra : rowAlert now hostname bad r =
                some (mkAlertRow now hostname "HASH"
                  (AlertDesc.maliciousHash (lowerStr s) r.file_path)
                  "CRITICAL" "Critical issue" (some r.file_path)
                  (some (lowerStr s)) none none) := by
              unfold rowAlert
              rw [hsha]
              exact if_pos hp
            rw [List.filterMap_cons, List.filter_cons, hra]
            simp only [hsha, decide_eq_true hp]
            simpa using ih
          · have hra : rowAlert now hostname bad r = none := by
              unfold rowAlert
              rw [hsha]
              exact if_neg hp
            rw [List.filterMap_cons, List.filter_cons, hra]
            simp only [hsha, decide_eq_false hp]
            simpa using ih

/-- Structure of the alerts of a successful collect-hashes outcome. -/
theorem collect_hashes_alerts (c : Bool) (ioc : Finset String) (now : ℚ)
    (body : JVal) (o : HashOutcome)
    (h : collect_hashes c ioc now body = Except.ok o) :
    o.alerts.length = (o.rows.filter (fun r =>
        match r.sha256 with
        | some s => decide (s ≠ "" ∧ lowerStr s ∈ o.bad)
        | none => false)).length ∧
    (o.bad = ∅ ∨ o.bad = Finset.image lowerStr ioc ∩ o.shaSet) ∧
    (∀ a ∈ o.alerts, a.category = "HASH" ∧ a.hostname = o.hostname) := by
  have hzero : ∀ rows : List HashRow, (rows.filter (fun r =>
      match r.sha256 with
      | some s => decide (s ≠ "" ∧ lowerStr s ∈ (∅ : Finset String))
      | none => false)).length = 0 := by
    intro rows
    induction rows with
    | nil => rfl
    | cons r rest ih =>
        have hpred : (match r.sha256 with
            | some s => decide (s ≠ "" ∧ lowerStr s ∈ (∅ : Finset String))
            | none => false) = false := by
          cases hs : r.sha256 with
          | none => simp [hs]
          | some s => simp [hs]
        rw [List.filter_cons, hpred]
        simpa using ih
  simp only [collect_hashes, collect_hashes_parsed] at h
  split at h
  · exact Except.noConfusion h
  · split at h
    · exact Except.noConfusion h
    · rename_i pr hpr
      split at h
      · rename_i hguard
        split at h
        · rename_i hbad
          injection h with h
          subst h
          refine ⟨filterMap_rowAlert_length now _ _ _, Or.inr rfl, ?_⟩
          intro a ha
          simp only at ha
          obtain ⟨r, hr, hra⟩ := List.mem_filterMap.1 ha
          exact rowAlert_mem _ _ _ _ _ hra
        · rename_i hbad
          have hb : Finset.image lowerStr ioc ∩ pr.2 = ∅ := not_not.mp hbad
          injection h with h
          subst h
          refine ⟨?_, Or.inl hb, ?_⟩
          · show (0 : ℕ) = _
            rw [hb]
            exact (hzero pr.1).symm
          · intro a ha
            simp only at ha
            exact absurd ha (List.not_mem_nil a)
      · injection h with h
        subst h
        refine ⟨?_, Or.inl rfl, ?_⟩
        · show (0 : ℕ) = _
          exact (hzero pr.1).symm
        · intro a ha
          simp only at ha
          exact absurd ha (List.not_mem_nil a)

/-- C1 as amended: on every successful hash-batch ingestion the new HASH
alerts are appended to the alert store unconditionally - the outcome and
the inserted alerts do not depend on the store's prior content, so there
is no 24-hour (hostname, sha256, HASH) dedup - and an alert is created for
exactly those persisted rows whose lowercased sha256 lies in the matched
bad set (the lowercased IOC table intersected with the batch's candidate
set). -/
theorem c1_amended_no_dedup (c : Bool) (ioc : Finset String) (now : ℚ)
    (body : JVal) (store : List AlertRow) (o : HashOutcome)
    (st : List AlertRow)
    (h : collect_hashes_store c ioc now body store = Except.ok (o, st)) :
    st = store ++ o.alerts ∧
    (∀ store2, collect_hashes_store c ioc now body store2 =
        Except.ok (o, store2 ++ o.alerts)) ∧
    o.alerts.length = (o.rows.filter (fun r =>
        match r.sha256 with
        | some s => decide (s ≠ "" ∧ lowerStr s ∈ o.bad)
        | none => false)).length ∧
    (o.bad = ∅ ∨ o.bad = Finset.image lowerStr ioc ∩ o.shaSet) ∧
    (∀ a ∈ o.alerts, a.category = "HASH" ∧ a.hostname = o.hostname) := by
  unfold collect_hashes_store at h
  split at h
  · exact Except.noConfusion h
  · rename_i o0 hch
    injection h with h
    injection h with hA hB
    subst hA
    subst hB
    have halerts := collect_hashes_alerts c ioc now body o0 hch
    refine ⟨foldl_insertAlertStore o0.alerts store, ?_, halerts.1,
      halerts.2.1, halerts.2.2⟩
    intro store2
    unfold collect_hashes_store
    rw [hch]
    show Except.ok (o0, List.foldl insertAlertStore store2 o0.alerts) =
      Except.ok (o0, store2 ++ o0.alerts)
    rw [foldl_insertAlertStore]

/-- C1 counterexample: resubmitting the same bad hash one hour after an
identical (h1, aSha, HASH) alert was stored still creates a new alert
(alerts_created = 1 and the store grows from 1 to 2 rows), although the
prior alert is within the claimed 24-hour suppression window. -/
theorem c1_counterexample :
    (collect_hashes true {aSha} 3600 c1Body).map alerts_created =
      Except.ok 1 ∧
    (collect_hashes_store true {aSha} 3600 c1Body [priorAlert]).map
        (fun p => p.2.length) = Except.ok 2 ∧
    priorAlert.hostname = "h1" ∧ priorAlert.category = "HASH" ∧
    priorAlert.sha256 = some aSha ∧ (3600 : ℚ) - priorAlert.ts ≤ 86400 := by
  refine ⟨by decide, by decide, rfl, rfl, rfl, ?_⟩
  show (3600 : ℚ) - 0 ≤ 86400
  norm_num

theorem c1_witness :
    ∃ o st, collect_hashes_store true {aSha} 3600 c1Body [] =
        Except.ok (o, st) ∧ st = [] ++ o.alerts ∧ o.alerts.length = 1 := by
  have hok : collect_hashes_store true {aSha} 3600 c1Body [] =
      Except.ok
        ({ hostname := "h1",
           rows := [{ hostname := "h1", file_path := "/f",
                      sha256 := some aSha }],
           shaSet := {aSha}, bad := {aSha},
           alerts := [{ ts := 3600, hostname := "h1", category := "HASH",
                        severity := "CRITICAL", label := "Critical issue",
                        description := AlertDesc.maliciousHash aSha "/f",
                        file_path := some "/f", sha256 := some aSha,
                        cpu := none, ramRatio := none }] },
         [{ ts := 3600, hostname := "h1", category := "HASH",
            severity := "CRITICAL", label := "Critical issue",
            description := AlertDesc.maliciousHash aSha "/f",
            file_path := some "/f", sha256 := some aSha,
            cpu := none, ramRatio := none }]) := by decide
  have h := c1_amended_no_dedup true {aSha} 3600 c1Body [] _ _ hok
  exact ⟨_, _, hok, h.1, by decide⟩
